import Mathlib

/-!
Verification of the credit-card statement parsing pipeline.

The development shallowly embeds the parsing modules of the repository
(`parsers/base_parser.py`, `parsers/regex/combined_parsers.py`,
`parsers/ai_parser.py`, `unified_parser.py`) into Lean.  Python strings are
modelled as `List Char`; the regular-expression based scanning functions are
translated into explicit, executable character-list matchers that mirror the
backtracking behaviour of the specific patterns appearing in the source.
External effects (the PDF text extractor, the bank detector call, the remote
AI backend) are modelled as explicit outcome parameters.
-/

set_option maxHeartbeats 1000000

open scoped List

/-- Python strings are modelled as lists of characters. -/
abbrev Str := List Char

/-- Shorthand turning a Lean string literal into the character-list model. -/
def str (s : String) : Str := s.data

/-- Sentinel used throughout the code base for an absent field
(`"NOT_FOUND"` in `base_parser.py`). -/
def NOT_FOUND : Str := str "NOT_FOUND"

/-- Whitespace test matching the characters of the regex class `\s`
(space, tab, newline, carriage return, vertical tab, form feed). -/
def pyIsSpaceB (c : Char) : Bool :=
  c = ' ' || c = '\t' || c = '\n' || c = '\r' || c = '\x0b' || c = '\x0c'

/-- Test for a digit or a decimal point, the class `[\d.]` kept by
`clean_amount`. -/
def isDigitOrDot (c : Char) : Bool := c.isDigit || c = '.'

/-- Model of Python `str.strip()`: drop whitespace from both ends. -/
def pyStrip (l : Str) : Str :=
  (l.dropWhile pyIsSpaceB).rdropWhile pyIsSpaceB

/-- Worker of `collapseWS`; the flag records whether the scan is inside a
whitespace run whose single replacement space has already been emitted. -/
def collapseWSAux : Bool → Str → Str
  | _, [] => []
  | inRun, c :: rest =>
    if pyIsSpaceB c then
      if inRun then collapseWSAux true rest
      else ' ' :: collapseWSAux true rest
    else c :: collapseWSAux false rest

/-- Model of `re.sub(r'\s+', ' ', value)`: every maximal whitespace run is
replaced by a single space. -/
def collapseWS (l : Str) : Str := collapseWSAux false l

/-- Model of the first substitution of `clean_amount`
(`base_parser.py` line 105):
`re.sub(r'[₹$£Rs]|INR|USD|DR|Cr|CR|dr|cr', '', amount_str)`.
The scan proceeds left to right; at each position the single-character class
is tried first, then each literal alternative in declared order, and on a hit
the matched characters are removed and scanning resumes after them.  No
literal alternative starts with a character of the class, and the two
alternatives sharing a first character (`Cr`, `CR`) differ in their second,
so the pattern alternatives below are mutually exclusive and their order
coincides with the declared one. -/
def stripCurrency : Str → Str
  | [] => []
  | 'I' :: 'N' :: 'R' :: rest => stripCurrency rest
  | 'U' :: 'S' :: 'D' :: rest => stripCurrency rest
  | 'D' :: 'R' :: rest => stripCurrency rest
  | 'C' :: 'r' :: rest => stripCurrency rest
  | 'C' :: 'R' :: rest => stripCurrency rest
  | 'd' :: 'r' :: rest => stripCurrency rest
  | 'c' :: 'r' :: rest => stripCurrency rest
  | c :: rest =>
    if c ∈ ['₹', '$', '£', 'R', 's'] then stripCurrency rest
    else c :: stripCurrency rest

/-- Model of Python `'a.b.c'.split('.')`: split a character list at every
decimal point; always returns at least one (possibly empty) part. -/
def splitOnDot : Str → List Str
  | [] => [[]]
  | c :: rest =>
    if c = '.' then [] :: splitOnDot rest
    else
      match splitOnDot rest with
      | [] => [[c]]
      | p :: ps => (c :: p) :: ps

/-- Model of `''.join(parts[:-1]) + '.' + parts[-1]` over `split('.')`
(`base_parser.py` lines 123-125): collapse all decimal points but the last. -/
def collapseDots (l : Str) : Str :=
  let parts := splitOnDot l
  (parts.dropLast).flatten ++ '.' :: parts.getLastD []

/-- Model of `BaseParser.clean_amount` (`base_parser.py` lines 97-133).
The intermediate value after the `[^\d.]` filter is exposed separately as
`cleanAmountCore` so that the empty-after-stripping condition can be stated. -/
def cleanAmountCore (amount_str : Str) : Str :=
  let cleaned := pyStrip (stripCurrency amount_str)
  let cleaned := cleaned.filter (fun c => c ≠ ' ')
  -- lines 113-117: both branches of the comma handling remove every comma
  let cleaned :=
    if '.' ∈ cleaned then cleaned.filter (fun c => c ≠ ',')
    else if ',' ∈ cleaned then cleaned.filter (fun c => c ≠ ',')
    else cleaned
  cleaned.filter isDigitOrDot

/-- Model of `BaseParser.clean_amount` (`base_parser.py` lines 97-133). -/
def clean_amount (amount_str : Str) : Str :=
  if amount_str = [] ∨ amount_str = NOT_FOUND then amount_str
  else
    let cleaned := cleanAmountCore amount_str
    let cleaned := if cleaned.count '.' > 1 then collapseDots cleaned else cleaned
    -- lines 127-131 are an explicit no-op (`pass`) in the source
    pyStrip cleaned

/-- Transaction record (`base_parser.py` lines 14-23). -/
structure Transaction where
  date : Str
  description : Str
  amount : Str
  category : Str := str "Other"
  deriving DecidableEq, Repr

/-- Statement record (`base_parser.py` lines 26-72).  The Python float
`confidence_score` is modelled as a rational number. -/
structure StatementData where
  bank_name : Str
  card_last_4 : Str := NOT_FOUND
  statement_date : Str := NOT_FOUND
  payment_due_date : Str := NOT_FOUND
  total_amount_due : Str := NOT_FOUND
  minimum_payment : Str := NOT_FOUND
  statement_period_start : Str := NOT_FOUND
  statement_period_end : Str := NOT_FOUND
  credit_limit : Str := NOT_FOUND
  available_credit : Str := NOT_FOUND
  extraction_method : Str := str "regex"
  confidence_score : ℚ := 0
  transactions : List Transaction := []
  raw_text_preview : Str := []
  errors : List Str := []
  deriving DecidableEq, Repr

/-- Ordered list of required fields inspected by `calculate_confidence`
(`base_parser.py` lines 55-61). -/
def requiredFields (s : StatementData) : List Str :=
  [s.card_last_4, s.statement_date, s.payment_due_date,
   s.total_amount_due, s.minimum_payment]

/-- Value computed by `StatementData.calculate_confidence`
(`base_parser.py` lines 53-64): `found / len(required)`. -/
def confidenceValue (s : StatementData) : ℚ :=
  let required := requiredFields s
  let found := required.countP (fun f => decide (f ≠ NOT_FOUND))
  (found : ℚ) / (required.length : ℚ)

/-- State effect of `calculate_confidence`: the method stores the computed
score in `confidence_score` and returns it. -/
def applyCalculateConfidence (s : StatementData) : StatementData :=
  { s with confidence_score := confidenceValue s }

/-- Validity predicate `StatementData.is_valid`
(`base_parser.py` lines 66-72). -/
def isValidB (s : StatementData) : Bool :=
  s.card_last_4 ≠ NOT_FOUND && s.total_amount_due ≠ NOT_FOUND &&
    s.payment_due_date ≠ NOT_FOUND

/-- Substring membership, Python `needle in hay`. -/
def strContains (hay needle : Str) : Bool :=
  hay.tails.any (fun t => needle.isPrefixOf t)

/-- Lower-casing, Python `str.lower()` restricted to ASCII. -/
def pyLower (l : Str) : Str := l.map Char.toLower

/-- Upper-casing, Python `str.upper()` restricted to ASCII. -/
def pyUpper (l : Str) : Str := l.map Char.toUpper

/-- Category keyword table of `BaseParser.categorize_transaction`
(`base_parser.py` lines 176-184) in dictionary insertion order. -/
def categoryTable : List (Str × List Str) :=
  [(str "Groceries", [str "grocery", str "supermarket", str "zepto",
      str "blinkit", str "bigbasket", str "dmart"]),
   (str "Dining", [str "restaurant", str "cafe", str "swiggy", str "zomato",
      str "food", str "starbucks", str "mcdonald"]),
   (str "Transportation", [str "uber", str "ola", str "fuel", str "petrol",
      str "gas", str "parking"]),
   (str "Shopping", [str "amazon", str "flipkart", str "myntra", str "store",
      str "mall"]),
   (str "Entertainment", [str "netflix", str "prime", str "spotify",
      str "movie", str "cinema"]),
   (str "Utilities", [str "electric", str "water", str "internet",
      str "phone", str "recharge"]),
   (str "Bills", [str "payment", str "paytm", str "phonepe", str "gpay"])]

/-- Model of `BaseParser.categorize_transaction`
(`base_parser.py` lines 169-190). -/
def categorize_transaction (description : Str) : Str :=
  let descLower := pyLower description
  match categoryTable.find? (fun ck => ck.2.any (fun kw => strContains descLower kw)) with
  | some ck => ck.1
  | none => str "Other"

/-- De-duplication key of `HDFCParser.extract_transactions`
(`combined_parsers.py` line 168): `f"{date}_{description[:40]}_{amount}"`. -/
def txnKey (t : Transaction) : Str :=
  t.date ++ '_' :: t.description.take 40 ++ '_' :: t.amount

/-- Worker of the de-duplication loop of `HDFCParser.extract_transactions`
(`combined_parsers.py` lines 164-173), carrying the `seen` key set. -/
def dedupGo (seen : List Str) : List Transaction → List Transaction
  | [] => []
  | t :: rest =>
    if txnKey t ∈ seen then dedupGo seen rest
    else t :: dedupGo (txnKey t :: seen) rest

/-- De-duplication pass of `HDFCParser.extract_transactions`
(`combined_parsers.py` lines 164-173): first occurrence of each key wins. -/
def dedupTransactions (ts : List Transaction) : List Transaction :=
  dedupGo [] ts

/-- Matcher for the fragment `\d{2}/\d{2}/\d{4}`: ten characters, eight
digits separated by slashes.  Returns the matched characters and the rest. -/
def parseDate10 : Str → Option (Str × Str)
  | d1 :: d2 :: s1 :: d3 :: d4 :: s2 :: d5 :: d6 :: d7 :: d8 :: rest =>
    if d1.isDigit && d2.isDigit && s1 = '/' && d3.isDigit && d4.isDigit &&
        s2 = '/' && d5.isDigit && d6.isDigit && d7.isDigit && d8.isDigit then
      some ([d1, d2, s1, d3, d4, s2, d5, d6, d7, d8], rest)
    else none
  | _ => none

/-- Matcher for the tail `([\d,]+\.[\d]{2})\s*(?:Cr|Dr)?` of the generic
Indian-format transaction pattern (`base_parser.py` line 197).  The greedy
run `[\d,]+` can only succeed maximally (a shorter run leaves a digit or a
comma where the literal decimal point is required), the trailing whitespace
run is greedy, and the optional non-capturing `Cr`/`Dr` marker is consumed
when present and then discarded, exactly as the non-capturing group does.
Returns the captured amount group and the remainder after the whole match. -/
def p1Amount (l : Str) : Option (Str × Str) :=
  let run := l.takeWhile (fun c => c.isDigit || c = ',')
  if run.isEmpty then none
  else
    match l.drop run.length with
    | '.' :: e1 :: e2 :: rest2 =>
      if e1.isDigit && e2.isDigit then
        let afterWs := rest2.dropWhile pyIsSpaceB
        let rem :=
          if afterWs.take 2 = str "Cr" ∨ afterWs.take 2 = str "Dr" then afterWs.drop 2
          else afterWs
        some (run ++ '.' :: [e1, e2], rem)
      else none
    | _ => none

/-- Matcher for `\s+` followed by the amount tail of the Indian pattern:
the whitespace run is greedy and backtracks from its maximal length. -/
def p1AfterDesc (l : Str) : Option (Str × Str) :=
  let maxC := (l.takeWhile pyIsSpaceB).length
  (List.range maxC).findSome? (fun i => p1Amount (l.drop (maxC - i)))

/-- Matcher for the lazy description group `(.+?)` of the Indian pattern
followed by the rest of the pattern: candidate description lengths are tried
from the shortest up, and a description never contains a newline because `.`
does not match one.  Returns (description group, amount group, remainder). -/
def p1Desc (l : Str) : Option (Str × Str × Str) :=
  (List.range l.length).findSome? (fun i =>
    let b := i + 1
    if (l.take b).any (fun c => c = '\n') then none
    else (p1AfterDesc (l.drop b)).map (fun ar => (l.take b, ar.1, ar.2)))

/-- Matcher for `\s+` between the date and the description of the Indian
pattern; the greedy run backtracks from its maximal length. -/
def p1AfterDate (l : Str) : Option (Str × Str × Str) :=
  let maxA := (l.takeWhile pyIsSpaceB).length
  (List.range maxA).findSome? (fun i => p1Desc (l.drop (maxA - i)))

/-- Attempted match of the whole Indian-format pattern
`(\d{2}/\d{2}/\d{4})\s+(.+?)\s+([\d,]+\.[\d]{2})\s*(?:Cr|Dr)?`
(`base_parser.py` line 197) anchored at the start of `l`.
Returns (date, description, amount, remainder after the match). -/
def matchP1 (l : Str) : Option (Str × Str × Str × Str) :=
  match parseDate10 l with
  | none => none
  | some (date, rest) =>
    match p1AfterDate rest with
    | none => none
    | some (desc, amt, rem) => some (date, desc, amt, rem)

/-- Worker of `re.finditer` for the Indian pattern: positions are scanned
left to right and scanning resumes after each non-overlapping match.  The
fuel argument starts at the length of the text; every step consumes at least
one character of the scanned list (a successful match consumes at least
seventeen), so the fuel never runs out before the list does. -/
def finditer1Go : ℕ → Str → List (Str × Str × Str)
  | 0, _ => []
  | _, [] => []
  | fuel + 1, c :: rest =>
    match matchP1 (c :: rest) with
    | some (date, desc, amt, rem) => (date, desc, amt) :: finditer1Go fuel rem
    | none => finditer1Go fuel rest

/-- Model of `re.finditer(pattern1, text)` (`base_parser.py` line 204). -/
def finditer1 (l : Str) : List (Str × Str × Str) := finditer1Go l.length l

/-- Matcher for the fragment `\d{2}/\d{2}`: five characters. -/
def parseDate5 : Str → Option (Str × Str)
  | d1 :: d2 :: s1 :: d3 :: d4 :: rest =>
    if d1.isDigit && d2.isDigit && s1 = '/' && d3.isDigit && d4.isDigit then
      some ([d1, d2, s1, d3, d4], rest)
    else none
  | _ => none

/-- Character class `[A-Z0-9]`, the first character of the US-format
description group (`base_parser.py` line 201). -/
def isClassU0 (c : Char) : Bool := ('A' ≤ c && c ≤ 'Z') || c.isDigit

/-- Character class `[A-Z0-9\s\*#\-\.]` of the US-format description group. -/
def isClassU (c : Char) : Bool :=
  isClassU0 c || pyIsSpaceB c || c = '*' || c = '#' || c = '-' || c = '.'

/-- Matcher for the tail `\$?([\d,]+\.[\d]{2})` of the US-format pattern:
an optional dollar sign (forced when present, because the amount group
cannot start with one) then the amount group, the pattern ending with the
second decimal digit. -/
def p2Amount (l : Str) : Option (Str × Str) :=
  let l2 := match l with | '$' :: restD => restD | _ => l
  let run := l2.takeWhile (fun c => c.isDigit || c = ',')
  if run.isEmpty then none
  else
    match l2.drop run.length with
    | '.' :: e1 :: e2 :: rest2 =>
      if e1.isDigit && e2.isDigit then some (run ++ '.' :: [e1, e2], rest2) else none
    | _ => none

/-- Matcher for `\s+` followed by the amount tail of the US pattern. -/
def p2AfterDesc (l : Str) : Option (Str × Str) :=
  let maxC := (l.takeWhile pyIsSpaceB).length
  (List.range maxC).findSome? (fun i => p2Amount (l.drop (maxC - i)))

/-- Matcher for the US description group `([A-Z0-9][A-Z0-9\s\*#\-\.]+?)`
followed by the rest of the pattern: one mandatory class character, then a
lazy run of class characters tried from the shortest length up. -/
def p2Desc (l : Str) : Option (Str × Str × Str) :=
  match l with
  | [] => none
  | c0 :: rest =>
    if isClassU0 c0 then
      (List.range rest.length).findSome? (fun i =>
        let b := i + 1
        if (rest.take b).all isClassU then
          (p2AfterDesc (rest.drop b)).map (fun ar => (c0 :: rest.take b, ar.1, ar.2))
        else none)
    else none

/-- Matcher for `\s+` between the date and the description of the US
pattern. -/
def p2AfterDate (l : Str) : Option (Str × Str × Str) :=
  let maxA := (l.takeWhile pyIsSpaceB).length
  (List.range maxA).findSome? (fun i => p2Desc (l.drop (maxA - i)))

/-- Attempted match of the whole US-format pattern
`(\d{2}/\d{2})\s+([A-Z0-9][A-Z0-9\s\*#\-\.]+?)\s+\$?([\d,]+\.[\d]{2})`
(`base_parser.py` line 201) anchored at the start of `l`. -/
def matchP2 (l : Str) : Option (Str × Str × Str × Str) :=
  match parseDate5 l with
  | none => none
  | some (date, rest) =>
    match p2AfterDate rest with
    | none => none
    | some (desc, amt, rem) => some (date, desc, amt, rem)

/-- Worker of `re.finditer` for the US pattern, with the same fuel argument
as `finditer1Go`. -/
def finditer2Go : ℕ → Str → List (Str × Str × Str)
  | 0, _ => []
  | _, [] => []
  | fuel + 1, c :: rest =>
    match matchP2 (c :: rest) with
    | some (date, desc, amt, rem) => (date, desc, amt) :: finditer2Go fuel rem
    | none => finditer2Go fuel rest

/-- Model of `re.finditer(pattern2, text)` (`base_parser.py` line 224). -/
def finditer2 (l : Str) : List (Str × Str × Str) := finditer2Go l.length l

/-- Attempted match of `Statement Period[:\s]*(\d{2}/\d{2}/)?(\d{4})`
(`base_parser.py` line 221) anchored at the start of `l`, returning the
year group.  The greedy run `[:\s]*` can only succeed maximally (a shorter
run leaves a colon or whitespace where a digit is required), and the
optional day/month group is tried greedily with fallback. -/
def yearMatchAt (l : Str) : Option Str :=
  if (str "Statement Period").isPrefixOf l then
    let rest := (l.drop 16).dropWhile (fun c => c = ':' || pyIsSpaceB c)
    let tryWith : Option Str :=
      match rest with
      | a1 :: a2 :: s1 :: a3 :: a4 :: s2 :: rest2 =>
        if a1.isDigit && a2.isDigit && s1 = '/' && a3.isDigit && a4.isDigit &&
            s2 = '/' then
          match rest2 with
          | y1 :: y2 :: y3 :: y4 :: _ =>
            if y1.isDigit && y2.isDigit && y3.isDigit && y4.isDigit then
              some [y1, y2, y3, y4]
            else none
          | _ => none
        else none
      | _ => none
    match tryWith with
    | some y => some y
    | none =>
      match rest with
      | y1 :: y2 :: y3 :: y4 :: _ =>
        if y1.isDigit && y2.isDigit && y3.isDigit && y4.isDigit then
          some [y1, y2, y3, y4]
        else none
      | _ => none
  else none

/-- Model of the `re.search` call locating the statement year
(`base_parser.py` lines 221-222): leftmost match wins. -/
def yearSearch : Str → Option Str
  | [] => none
  | c :: rest =>
    match yearMatchAt (c :: rest) with
    | some y => some y
    | none => yearSearch rest

/-- Numeric value of a digit string. -/
def natOfDigits (l : Str) : ℕ :=
  l.foldl (fun acc c => acc * 10 + (c.toNat - '0'.toNat)) 0

/-- Model of Python `float(...)` restricted to the canonical digit and
decimal-point strings produced by `clean_amount` (an optional integer part,
an optional point, an optional fractional part, at least one digit overall);
`none` models the `ValueError` raised on anything else.  The value
`intpart.fracpart` is assembled as the single fraction
`(intpart·10^n + fracpart) / 10^n`. -/
def pyFloatQ (l : Str) : Option ℚ :=
  let intPart := l.takeWhile Char.isDigit
  let rest := l.drop intPart.length
  match rest with
  | [] => if intPart.isEmpty then none else some (mkRat (natOfDigits intPart) 1)
  | '.' :: frac =>
    if frac.all Char.isDigit && (!intPart.isEmpty || !frac.isEmpty) then
      some (mkRat (natOfDigits intPart * 10 ^ frac.length + natOfDigits frac)
        (10 ^ frac.length))
    else none
  | _ => none

/-- Per-match emission of the Indian branch of the generic
`BaseParser.extract_transactions` (`base_parser.py` lines 207-218).  The
match is the triple of captured groups; note that no credit/debit marker is
available, the non-capturing `(?:Cr|Dr)?` group having discarded it. -/
def baseEmitIndian (m : Str × Str × Str) : Option Transaction :=
  let description := (pyStrip m.2.1).take 100
  let amount := clean_amount m.2.2
  if amount ≠ [] ∧ (pyFloatQ amount).getD 0 > 0 then
    some { date := m.1, description := description, amount := '₹' :: amount,
           category := categorize_transaction description }
  else none

/-- Per-match emission of the US branch of the generic
`BaseParser.extract_transactions` (`base_parser.py` lines 224-237). -/
def baseEmitUS (year : Str) (m : Str × Str × Str) : Option Transaction :=
  let description := (pyStrip m.2.1).take 100
  let amount := clean_amount m.2.2
  if amount ≠ [] ∧ (pyFloatQ amount).getD 0 > 0 then
    some { date := m.1 ++ '/' :: year, description := description,
           amount := '₹' :: amount,
           category := categorize_transaction description }
  else none

/-- Model of the generic fallback `BaseParser.extract_transactions`
(`base_parser.py` lines 192-239): the Indian pattern is tried first; when it
has no matches, the US pattern is used with the year completed from the
statement-period search (default `"2024"`).  No de-duplication is
performed. -/
def base_extract_transactions (text : Str) : List Transaction :=
  let ms := finditer1 text
  if ms ≠ [] then ms.filterMap baseEmitIndian
  else
    let year := (yearSearch text).getD (str "2024")
    (finditer2 text).filterMap (baseEmitUS year)

/-- Case-insensitive literal word pair separated by `\s+`, used by the HDFC
transaction-section search; the greedy whitespace run can only succeed
maximally because the second word cannot start with whitespace. -/
def matchCIWordPair (w1 w2 l : Str) : Bool :=
  if pyLower (l.take w1.length) = pyLower w1 && decide (w1.length ≤ l.length) then
    let r1 := l.drop w1.length
    let ws := r1.takeWhile pyIsSpaceB
    !ws.isEmpty &&
      (pyLower ((r1.drop ws.length).take w2.length) = pyLower w2 &&
       decide (w2.length ≤ (r1.drop ws.length).length))
  else false

/-- Attempted match of the section header alternation
`(?:Domestic\s+Transactions|Transaction\s+Details)` with `re.IGNORECASE`
(`combined_parsers.py` line 94) anchored at the start of `l`. -/
def hdfcHeaderAt (l : Str) : Bool :=
  matchCIWordPair (str "Domestic") (str "Transactions") l ||
    matchCIWordPair (str "Transaction") (str "Details") l

/-- Model of the `re.search` for the HDFC transaction section
(`combined_parsers.py` lines 94-95): the trailing `[\s\S]*` extends every
match to the end of the text, so the matched group is the suffix starting at
the leftmost header occurrence. -/
def findHdfcSection : Str → Option Str
  | [] => none
  | c :: rest =>
    if hdfcHeaderAt (c :: rest) then some (c :: rest) else findHdfcSection rest

/-- Model of Python `text.split('\n')`. -/
def splitLines : Str → List Str
  | [] => [[]]
  | c :: rest =>
    if c = '\n' then [] :: splitLines rest
    else
      match splitLines rest with
      | [] => [[c]]
      | p :: ps => (c :: p) :: ps

/-- Matcher for the fragment `[\d,]+\.[\d]{2}` read off a REVERSED string
ending where the amount ends: the reversed input starts with the two decimal
digits, the point, and then the maximal leftward extension of the `[\d,]+`
run, which realises the leftmost match start.  Returns the amount group (in
forward order) together with the start index of the match within the
forward string. -/
def parseAmountRev : Str → Option (Str × ℕ)
  | e2 :: e1 :: cdot :: r3 =>
    if e2.isDigit && e1.isDigit && (cdot == '.') then
      let run := r3.takeWhile (fun c => c.isDigit || c = ',')
      if run.isEmpty then none
      -- the match start index (e2 :: e1 :: cdot :: r3).length - (run.length + 3)
      -- simplifies to r3.length - run.length
      else some (run.reverse ++ '.' :: [e1, e2], r3.length - run.length)
    else none
  | _ => none

/-- Test whether the optional `(Cr)` group of the amount search matches:
after discarding the trailing whitespace matched by the final `\s*`, the
line ends with the two characters `Cr` (seen as `rC` on the reversed
string). -/
def hdfcHasCr (rest : Str) : Bool :=
  (rest.reverse.dropWhile pyIsSpaceB).take 2 = str "rC"

/-- Reversed remainder of the line on which the amount group itself must
end: trailing whitespace, then the optional `Cr` marker, then the
whitespace of the middle `\s*` are discarded from the end. -/
def hdfcAmountTarget (rest : Str) : Str :=
  if hdfcHasCr rest then
    ((rest.reverse.dropWhile pyIsSpaceB).drop 2).dropWhile pyIsSpaceB
  else rest.reverse.dropWhile pyIsSpaceB

/-- Model of `re.search(r'([\d,]+\.[\d]{2})\s*(Cr)?\s*$', rest)`
(`combined_parsers.py` line 118), parsed from the end of the line: every
match is anchored at the end by `$`, the trailing whitespace runs and the
optional `Cr` group are forced (no amount or whitespace character can be
`C` or `r`), and the amount group is delegated to `parseAmountRev` on the
reversed remainder.  Returns (amount group, whether the `Cr` group matched,
start index of the match). -/
def hdfcAmountSearch (rest : Str) : Option (Str × Bool × ℕ) :=
  (parseAmountRev (hdfcAmountTarget rest)).map
    (fun ai => (ai.1, hdfcHasCr rest, ai.2))

/-- Header fragments that make `HDFCParser.extract_transactions` skip a line
(`combined_parsers.py` line 133). -/
def hdfcSkipHeaders : List Str :=
  [str "PAYMENT DUE DATE", str "TOTAL DUES", str "MINIMUM AMOUNT",
   str "CREDIT LIMIT"]

/-- Per-line processing of `HDFCParser.extract_transactions`
(`combined_parsers.py` lines 100-162). -/
def hdfcProcessLine (rawLine : Str) : Option Transaction :=
  let line := pyStrip rawLine
  match parseDate10 line with
  | none => none
  | some (date, tail) =>
    -- the second anchored regex `^(\d{2}/\d{2}/\d{4})\s+(.+)` additionally
    -- requires at least one whitespace character after the date and at
    -- least one further character
    if (tail.takeWhile pyIsSpaceB).isEmpty then none
    else
      let rest := tail.dropWhile pyIsSpaceB
      -- when everything after the date is whitespace, the backtracking edge
      -- case (the final whitespace character standing in for the
      -- description) leaves a bare whitespace remainder on which the amount
      -- search below necessarily fails, so it is folded into failure here
      if rest.isEmpty then none
      else
        match hdfcAmountSearch rest with
        | none => none
        | some (amountGroup, isCredit, startIdx) =>
          let description := pyStrip (rest.take startIdx)
          if description.length < 5 then none
          else if hdfcSkipHeaders.any
              (fun skip => strContains (pyUpper description) skip) then none
          else
            let cleanedAmount := clean_amount amountGroup
            if cleanedAmount.isEmpty then none
            else
              match pyFloatQ cleanedAmount with
              | none => none   -- a float() failure hits `except: continue`
              | some v =>
                if v < 0 then none
                else
                  let description := (collapseWS description).take 150
                  let amountDisplay :=
                    if isCredit then str "â‚¹" ++ cleanedAmount ++ str " Cr"
                    else str "â‚¹" ++ cleanedAmount
                  some { date := date, description := description,
                         amount := amountDisplay,
                         category := categorize_transaction description }

/-- Transaction list accumulated by the line loop of
`HDFCParser.extract_transactions` (`combined_parsers.py` lines 91-162),
before the de-duplication pass. -/
def hdfcRawTransactions (text : Str) : List Transaction :=
  let transText := (findHdfcSection text).getD text
  (splitLines transText).filterMap hdfcProcessLine

/-- Model of `HDFCParser.extract_transactions`
(`combined_parsers.py` lines 89-173). -/
def hdfc_extract_transactions (text : Str) : List Transaction :=
  dedupTransactions (hdfcRawTransactions text)

/-- Projection of the HDFC per-line parse exposing whether the optional
`(Cr)` group of the amount search matched on that line; used to state the
credit-tagging property. -/
def hdfcLineCredit (rawLine : Str) : Option Bool :=
  let line := pyStrip rawLine
  match parseDate10 line with
  | none => none
  | some (_, tail) =>
    if (tail.takeWhile pyIsSpaceB).isEmpty then none
    else
      match hdfcAmountSearch (tail.dropWhile pyIsSpaceB) with
      | none => none
      | some (_, isCredit, _) => some isCredit

/-- Abstraction of one compiled regex pattern as consumed by
`BaseParser.extract_with_pattern`: applying a pattern to a text yields the
raw text of capture group 1 on a successful search, and `none` when the
search fails, the pattern is malformed (`re.error`) or has no group 1
(`IndexError`), both of which the source absorbs with `continue`.  The
regex engine itself is the external `re` library; the claims about
`extract_with_pattern` concern only its ordering logic over these
outcomes. -/
def PatternFn : Type := Str → Option Str

/-- Cleaned captured value of one pattern on one text, following
`base_parser.py` lines 150-153: strip, collapse whitespace, and discard the
result when it is empty. -/
def cleanedCapture (p : PatternFn) (text : Str) : Option Str :=
  match p text with
  | none => none
  | some g =>
    let value := collapseWS (pyStrip g)
    if value.isEmpty then none else some value

/-- Model of `BaseParser.extract_with_pattern`
(`base_parser.py` lines 135-158): patterns are tried in declared order and
the first non-empty cleaned capture is returned, else the sentinel. -/
def extract_with_pattern (text : Str) : List PatternFn → Str
  | [] => NOT_FOUND
  | p :: rest =>
    match p text with
    | none => extract_with_pattern text rest
    | some g =>
      let value := collapseWS (pyStrip g)
      if value.isEmpty then extract_with_pattern text rest else value

/-- Field map returned by the external AI backend, as read by
`GeminiAIParser.enhance_regex_results`: only the four fields the
enhancement loop can request are relevant; `none` models a key absent from
the response dictionary. -/
structure AIFields where
  card_last_4 : Option Str := none
  total_amount_due : Option Str := none
  payment_due_date : Option Str := none
  minimum_payment : Option Str := none
  deriving DecidableEq, Repr

/-- Outcome of `_call_gemini_api` as observed by `enhance_regex_results`:
the call can raise (network error, HTTP error status, JSON decode error),
return a dictionary with `status == "failed"` (empty candidate list,
`ai_parser.py` line 136), or return the extracted fields with
`status == "success"`. -/
inductive AIOutcome where
  | raised (msg : Str)
  | failedResp (err : Str)
  | success (d : AIFields)
  deriving DecidableEq, Repr

/-- Per-field update of the enhancement loop
(`ai_parser.py` lines 207-216): a field is rewritten only when it was in the
missing list (held the sentinel), the response dictionary has the key, and
the response value is not the sentinel; amount fields pass through
`clean_amount`. -/
def enhanceField (cur : Str) (aiVal : Option Str) (cleanIt : Bool) : Str :=
  if cur = NOT_FOUND then
    match aiVal with
    | some v => if v ≠ NOT_FOUND then (if cleanIt then clean_amount v else v) else cur
    | none => cur
  else cur

/-- Model of `GeminiAIParser.enhance_regex_results`
(`ai_parser.py` lines 179-227).  The external call is passed in as an
explicit outcome.  With no API key, or with none of the four checked fields
missing, the statement is returned untouched before any call; otherwise the
outcome is dispatched exactly as in the source and the confidence is
recomputed at the end. -/
def enhance_regex_results (apiKey : Str) (s : StatementData)
    (outcome : AIOutcome) : StatementData :=
  if apiKey.isEmpty then s
  else if s.card_last_4 ≠ NOT_FOUND ∧ s.total_amount_due ≠ NOT_FOUND ∧
      s.payment_due_date ≠ NOT_FOUND ∧ s.minimum_payment ≠ NOT_FOUND then s
  else
    let s2 :=
      match outcome with
      | .raised msg =>
        { s with errors := s.errors ++ [str "AI enhancement failed: " ++ msg] }
      | .failedResp _ => s
      | .success d =>
        { s with
          card_last_4 := enhanceField s.card_last_4 d.card_last_4 false,
          total_amount_due := enhanceField s.total_amount_due d.total_amount_due true,
          payment_due_date := enhanceField s.payment_due_date d.payment_due_date false,
          minimum_payment := enhanceField s.minimum_payment d.minimum_payment true,
          extraction_method := s.extraction_method ++ str "+ai_enhanced" }
    applyCalculateConfidence s2

/-- Contents of `REGEX_SUPPORTED_BANKS` (`config.py` line 26). -/
def REGEX_SUPPORTED_BANKS : List Str :=
  [str "hdfc", str "axis", str "icici", str "idfc", str "syndicate"]

/-- Outward result of `UnifiedCreditCardParser.parse`: either the failure
dictionary `{"status": "FAILED", "reason": ..., "extraction_method": ...}`
or the statement dictionary with its `SUCCESS`/`PARTIAL` status
(`unified_parser.py` lines 70-74, 100-101, 110-114). -/
inductive ParseResult where
  | failed (reason : Str) (method : Str)
  | done (s : StatementData) (status : Str)
  deriving DecidableEq, Repr

/-- Stage outcomes consumed by the orchestrator, one per call it makes
inside its `try` block: the PDF text extraction, the bank detection, the
per-bank regex parse, the full AI parse and the AI enhancement.  An
`Except.error` models the stage raising an exception. -/
structure ParseEnv where
  extractResult : Except Str Str
  detectOutcome : Except Str (Option Str)
  regexParse : Str → Except Str StatementData
  aiParse : Except Str StatementData
  enhanceOutcome : StatementData → Except Str StatementData

/-- Result assembly of `unified_parser.py` lines 100-101: `SUCCESS` when the
statement satisfies `is_valid`, otherwise `PARTIAL`. -/
def finishStatement (s : StatementData) : ParseResult :=
  .done s (if isValidB s then str "SUCCESS" else str "PARTIAL")

/-- Body of the `try` block of `UnifiedCreditCardParser.parse`
(`unified_parser.py` lines 64-106); an `Except.error` escaping this
function models an exception reaching the `except` handler. -/
def unifiedParseInner (apiKey : Str) (env : ParseEnv) (forceAI : Bool) :
    Except Str ParseResult := do
  let fullText ← env.extractResult
  if fullText.isEmpty || decide ((pyStrip fullText).length < 100) then
    return .failed (str "Could not extract sufficient text from PDF") (str "none")
  let detected ← env.detectOutcome
  if forceAI = true ∨ detected = none ∨ detected = some [] ∨
      detected.getD [] ∉ REGEX_SUPPORTED_BANKS then
    let st ← env.aiParse
    return finishStatement st
  else
    let st ← env.regexParse (detected.getD [])
    if (detected = some (str "axis") ∧ st.transactions.length = 0) ∨
        st.confidence_score < 4 / 5 then
      if apiKey.isEmpty then return finishStatement st
      else
        let st2 ← env.enhanceOutcome st
        return finishStatement st2
    else return finishStatement st

/-- Model of `UnifiedCreditCardParser.parse` (`unified_parser.py` lines
53-114): the `except` clause converts any exception from any stage into the
failure dictionary carrying the exception text. -/
def unified_parse (apiKey : Str) (env : ParseEnv) (forceAI : Bool) :
    ParseResult :=
  match unifiedParseInner apiKey env forceAI with
  | .ok r => r
  | .error e => .failed e (str "error")

/-- Specification-side count of present required fields: a field is present
exactly when it differs from the sentinel. -/
def presentRequiredCount (s : StatementData) : ℕ :=
  (if s.card_last_4 = NOT_FOUND then 0 else 1) +
  (if s.statement_date = NOT_FOUND then 0 else 1) +
  (if s.payment_due_date = NOT_FOUND then 0 else 1) +
  (if s.total_amount_due = NOT_FOUND then 0 else 1) +
  (if s.minimum_payment = NOT_FOUND then 0 else 1)

/-- Equality of the ten statement data fields of two records. -/
def coreFieldsEq (r s : StatementData) : Prop :=
  r.bank_name = s.bank_name ∧ r.card_last_4 = s.card_last_4 ∧
  r.statement_date = s.statement_date ∧
  r.payment_due_date = s.payment_due_date ∧
  r.total_amount_due = s.total_amount_due ∧
  r.minimum_payment = s.minimum_payment ∧
  r.statement_period_start = s.statement_period_start ∧
  r.statement_period_end = s.statement_period_end ∧
  r.credit_limit = s.credit_limit ∧ r.available_credit = s.available_credit

/-- At least one of the four fields checked by the enhancement mode is
missing, so the external call is attempted. -/
def someRequiredMissing (s : StatementData) : Prop :=
  s.card_last_4 = NOT_FOUND ∨ s.total_amount_due = NOT_FOUND ∨
    s.payment_due_date = NOT_FOUND ∨ s.minimum_payment = NOT_FOUND

/-- Statement record whose five required fields all hold the empty string. -/
def emptyFieldsStatement : StatementData :=
  { bank_name := str "HDFC Bank", card_last_4 := [], statement_date := [],
    payment_due_date := [], total_amount_due := [], minimum_payment := [] }

/-- Freshly constructed pattern-based record with every extracted field
still holding the sentinel. -/
def pendingStatement : StatementData := { bank_name := str "HDFC Bank" }

/-- Statement text containing the same Indian-format transaction line
twice. -/
def dupIndianText : Str := str "01/01/2024 PAY X 1.00\n01/01/2024 PAY X 1.00"

/-- Record emitted by the generic engine for each copy of the duplicated
line of `dupIndianText`. -/
def dupIndianTxn : Transaction :=
  { date := str "01/01/2024", description := str "PAY X",
    amount := str "₹1.00", category := str "Other" }

/-- Transaction line whose amount carries an explicit trailing credit
marker. -/
def creditLineText : Str := str "01/02/2024 PAYMENT RECEIVED 500.00 Cr"

/-- Same transaction line without the credit marker. -/
def debitLineText : Str := str "01/02/2024 PAYMENT RECEIVED 500.00"

/-- HDFC statement text with a duplicated transaction line inside the
transaction section. -/
def hdfcDupText : Str :=
  str "Domestic Transactions\n01/01/2024 SWIGGY ORDER 100.00\n01/01/2024 SWIGGY ORDER 100.00"

/-- HDFC transaction line explicitly marked as a credit. -/
def hdfcCreditLine : Str := str "01/01/2024 UBER TRIP 250.00 Cr"

/-- Record produced by the HDFC engine for the duplicated line of
`hdfcDupText` (the currency prefix reproduces the byte sequence appearing
in `combined_parsers.py`). -/
def hdfcSwiggyTxn : Transaction :=
  { date := str "01/01/2024", description := str "SWIGGY ORDER",
    amount := str "â‚¹100.00", category := str "Dining" }

/-- Record produced by the HDFC engine for `hdfcCreditLine`. -/
def hdfcUberCreditTxn : Transaction :=
  { date := str "01/01/2024", description := str "UBER TRIP",
    amount := str "â‚¹250.00 Cr", category := str "Transportation" }

/-- Inert statement record used by the stub stage environments. -/
def stubStatement : StatementData := { bank_name := str "Unknown" }

/-- Stage environment whose extractor yields a 40-character text; every
later stage is a plain stub. -/
def c7Env : ParseEnv :=
  { extractResult := .ok (str "Too short to be a credit card statement."),
    detectOutcome := .ok none,
    regexParse := fun _ => .ok stubStatement,
    aiParse := .ok stubStatement,
    enhanceOutcome := fun st => .ok st }

/-- Stage environment with the same 40-character extraction result but
with every later stage raising, to exhibit that no later stage runs. -/
def c7EnvAlt : ParseEnv :=
  { extractResult := .ok (str "Too short to be a credit card statement."),
    detectOutcome := .error (str "detector crash"),
    regexParse := fun _ => .error (str "regex crash"),
    aiParse := .error (str "ai crash"),
    enhanceOutcome := fun _ => .error (str "enhance crash") }

/-- Stage environment whose text extraction stage raises. -/
def c8Env : ParseEnv :=
  { extractResult := .error (str "PDF engine exploded"),
    detectOutcome := .ok none,
    regexParse := fun _ => .ok stubStatement,
    aiParse := .ok stubStatement,
    enhanceOutcome := fun st => .ok st }

theorem splitOnDot_ne_nil (l : Str) : splitOnDot l ≠ [] := by
  cases l with
  | nil => simp [splitOnDot]
  | cons c rest =>
    simp only [splitOnDot]
    split
    · simp
    · split <;> simp

theorem mem_splitOnDot_no_dot (l : Str) : ∀ p ∈ splitOnDot l, '.' ∉ p := by
  induction l with
  | nil =>
    intro p hp
    simp [splitOnDot] at hp
    subst hp; simp
  | cons c rest ih =>
    intro p hp
    by_cases hc : c = '.'
    · rw [splitOnDot, if_pos hc] at hp
      rcases List.mem_cons.mp hp with h | h
      · subst h; simp
      · exact ih p h
    · rw [splitOnDot, if_neg hc] at hp
      cases hsp : splitOnDot rest with
      | nil => exact absurd hsp (splitOnDot_ne_nil rest)
      | cons q qs =>
        rw [hsp] at hp
        rcases List.mem_cons.mp hp with h | h
        · subst h
          intro hmem
          rcases List.mem_cons.mp hmem with h1 | h1
          · exact hc h1.symm
          · exact ih q (by rw [hsp]; exact List.mem_cons_self q qs) h1
        · exact ih p (by rw [hsp]; exact List.mem_cons_of_mem q h)

theorem mem_splitOnDot_subset (l : Str) : ∀ p ∈ splitOnDot l, p ⊆ l := by
  induction l with
  | nil =>
    intro p hp
    simp [splitOnDot] at hp
    subst hp; simp
  | cons c rest ih =>
    intro p hp
    by_cases hc : c = '.'
    · rw [splitOnDot, if_pos hc] at hp
      rcases List.mem_cons.mp hp with h | h
      · subst h; exact List.nil_subset _
      · exact (ih p h).trans (List.subset_cons_self c rest)
    · rw [splitOnDot, if_neg hc] at hp
      cases hsp : splitOnDot rest with
      | nil => exact absurd hsp (splitOnDot_ne_nil rest)
      | cons q qs =>
        rw [hsp] at hp
        rcases List.mem_cons.mp hp with h | h
        · subst h
          intro x hx
          rcases List.mem_cons.mp hx with h1 | h1
          · exact h1 ▸ List.mem_cons_self c rest
          · exact List.mem_cons_of_mem c
              (ih q (by rw [hsp]; exact List.mem_cons_self q qs) h1)
        · exact (ih p (by rw [hsp]; exact List.mem_cons_of_mem q h)).trans
            (List.subset_cons_self c rest)

theorem getLastD_mem_of_ne_nil (l : List Str) (d : Str) (h : l ≠ []) :
    l.getLastD d ∈ l := by
  rw [List.getLastD_eq_getLast?, List.getLast?_eq_getLast l h]
  exact List.getLast_mem h

theorem count_collapseDots (l : Str) : (collapseDots l).count '.' = 1 := by
  unfold collapseDots
  rw [List.count_append]
  have h1 : ((splitOnDot l).dropLast.flatten).count '.' = 0 := by
    rw [List.count_eq_zero]
    intro hmem
    rw [List.mem_flatten] at hmem
    obtain ⟨p, hp, hcp⟩ := hmem
    exact mem_splitOnDot_no_dot l p (List.dropLast_subset _ hp) hcp
  have h2 : (((splitOnDot l).getLastD []).count '.') = 0 := by
    rw [List.count_eq_zero]
    exact mem_splitOnDot_no_dot l _
      (getLastD_mem_of_ne_nil _ _ (splitOnDot_ne_nil l))
  rw [h1, List.count_cons, h2]
  simp

theorem mem_collapseDots (l : Str) (c : Char) (hc : c ∈ collapseDots l) :
    c ∈ l ∨ c = '.' := by
  unfold collapseDots at hc
  rcases List.mem_append.mp hc with h | h
  · rw [List.mem_flatten] at h
    obtain ⟨p, hp, hcp⟩ := h
    exact Or.inl (mem_splitOnDot_subset l p (List.dropLast_subset _ hp) hcp)
  · rcases List.mem_cons.mp h with h1 | h1
    · exact Or.inr h1
    · exact Or.inl (mem_splitOnDot_subset l _
        (getLastD_mem_of_ne_nil _ _ (splitOnDot_ne_nil l)) h1)

theorem pyStrip_sublist (l : Str) : List.Sublist (pyStrip l) l :=
  ((List.rdropWhile_prefix pyIsSpaceB (l.dropWhile pyIsSpaceB)).sublist).trans
    (List.dropWhile_sublist pyIsSpaceB)

theorem count_dropWhile_pyIsSpace (l : Str) (a : Char)
    (ha : pyIsSpaceB a = false) :
    (l.dropWhile pyIsSpaceB).count a = l.count a := by
  conv_rhs => rw [← List.takeWhile_append_dropWhile (p := pyIsSpaceB) (l := l)]
  rw [List.count_append]
  have h0 : (l.takeWhile pyIsSpaceB).count a = 0 := by
    rw [List.count_eq_zero]
    intro hmem
    have hpa := List.mem_takeWhile_imp hmem
    rw [ha] at hpa
    exact Bool.noConfusion hpa
  omega

theorem count_rdropWhile_pyIsSpace (l : Str) (a : Char)
    (ha : pyIsSpaceB a = false) :
    (l.rdropWhile pyIsSpaceB).count a = l.count a := by
  rw [List.rdropWhile, List.count_reverse,
    count_dropWhile_pyIsSpace _ a ha, List.count_reverse]

theorem count_pyStrip (l : Str) (a : Char) (ha : pyIsSpaceB a = false) :
    (pyStrip l).count a = l.count a := by
  rw [pyStrip, count_rdropWhile_pyIsSpace _ a ha,
    count_dropWhile_pyIsSpace _ a ha]

theorem cleanAmountCore_chars (s : Str) :
    ∀ c ∈ cleanAmountCore s, c.isDigit ∨ c = '.' := by
  intro c hc
  unfold cleanAmountCore at hc
  have := List.of_mem_filter hc
  simpa [isDigitOrDot] using this

theorem cleanAmount_eq_of_regular (s : Str) (h1 : s ≠ []) (h2 : s ≠ NOT_FOUND) :
    clean_amount s =
      pyStrip (if (cleanAmountCore s).count '.' > 1
        then collapseDots (cleanAmountCore s) else cleanAmountCore s) := by
  unfold clean_amount
  rw [if_neg (by simp [h1, h2])]

theorem cleanAmount_chars (s : Str) (h1 : s ≠ []) (h2 : s ≠ NOT_FOUND) :
    ∀ c ∈ clean_amount s, c.isDigit ∨ c = '.' := by
  intro c hc
  rw [cleanAmount_eq_of_regular s h1 h2] at hc
  have hc2 := (pyStrip_sublist _).subset hc
  by_cases hgt : (cleanAmountCore s).count '.' > 1
  · rw [if_pos hgt] at hc2
    rcases mem_collapseDots _ c hc2 with h | h
    · exact cleanAmountCore_chars s c h
    · exact Or.inr h
  · rw [if_neg hgt] at hc2
    exact cleanAmountCore_chars s c hc2

theorem cleanAmount_count_dot_le (s : Str) (h1 : s ≠ []) (h2 : s ≠ NOT_FOUND) :
    (clean_amount s).count '.' ≤ 1 := by
  rw [cleanAmount_eq_of_regular s h1 h2]
  by_cases hgt : (cleanAmountCore s).count '.' > 1
  · rw [if_pos hgt, count_pyStrip _ '.' (by decide), count_collapseDots]
  · rw [if_neg hgt]
    have := ((pyStrip_sublist
      (cleanAmountCore s)).count_le '.')
    omega

theorem cleanAmount_count_dot_eq_one (s : Str) (h1 : s ≠ []) (h2 : s ≠ NOT_FOUND)
    (hgt : (cleanAmountCore s).count '.' > 1) :
    (clean_amount s).count '.' = 1 := by
  rw [cleanAmount_eq_of_regular s h1 h2, if_pos hgt,
    count_pyStrip _ '.' (by decide), count_collapseDots]

/-- C9: on any input that is neither empty nor the sentinel, `clean_amount`
returns a string made of decimal digits and at most one decimal point, and
when more than one decimal point survives the character filter, exactly one
remains in the result. -/
theorem C9_clean_amount_canonical (s : Str) (h1 : s ≠ []) (h2 : s ≠ NOT_FOUND) :
    (∀ c ∈ clean_amount s, c.isDigit ∨ c = '.') ∧
    (clean_amount s).count '.' ≤ 1 ∧
    ((cleanAmountCore s).count '.' > 1 → (clean_amount s).count '.' = 1) :=
  ⟨cleanAmount_chars s h1 h2, cleanAmount_count_dot_le s h1 h2,
    cleanAmount_count_dot_eq_one s h1 h2⟩

/-- C9 witness: the theorem applied to the concrete input `"₹1.2.3x"`,
whose filtered form `"1.2.3"` has two decimal points. -/
theorem C9_clean_amount_canonical_witness :
    (clean_amount (str "₹1.2.3x")).count '.' = 1 :=
  (C9_clean_amount_canonical (str "₹1.2.3x") (by decide) (by decide)).2.2
    (by decide)

/-- C5 counterexample: on the input `"abc"` (non-empty, not the sentinel,
and left empty by stripping) `clean_amount` returns the empty string, not
the `"NOT_FOUND"` sentinel the claim requires. -/
theorem C5_claim_counterexample :
    clean_amount (str "abc") = [] ∧ ([] : Str) ≠ NOT_FOUND ∧
      str "abc" ≠ [] ∧ str "abc" ≠ NOT_FOUND := by
  refine ⟨rfl, by decide, by decide, by decide⟩

/-- C5 (amended): a sentinel input is returned unchanged, and an input left
empty by stripping yields the empty string (never a raised failure: the
function is total and always returns a string). -/
theorem C5_clean_amount_empty_policy (s : Str) :
    (s = NOT_FOUND → clean_amount s = NOT_FOUND) ∧
    (s = [] → clean_amount s = []) ∧
    (s ≠ [] → s ≠ NOT_FOUND → cleanAmountCore s = [] → clean_amount s = []) := by
  refine ⟨?_, ?_, ?_⟩
  · intro h; subst h; rfl
  · intro h; subst h; rfl
  · intro h1 h2 hcore
    rw [cleanAmount_eq_of_regular s h1 h2, hcore]
    simp [pyStrip]

/-- C5 witness: the amended theorem applied to the concrete inputs
`"NOT_FOUND"` and `"abc"`. -/
theorem C5_clean_amount_empty_policy_witness :
    clean_amount NOT_FOUND = NOT_FOUND ∧ clean_amount (str "abc") = [] :=
  ⟨(C5_clean_amount_empty_policy NOT_FOUND).1 rfl,
   (C5_clean_amount_empty_policy (str "abc")).2.2 (by decide) (by decide) rfl⟩

/-- C1: the confidence score is the number of required fields differing
from the sentinel divided by five, it lies in the interval from zero to
one, and recomputing it on the record updated with its own score yields the
same score (purity and idempotence of `calculate_confidence`). -/
theorem C1_confidence_formula (s : StatementData) :
    confidenceValue s = (presentRequiredCount s : ℚ) / 5 ∧
    0 ≤ confidenceValue s ∧ confidenceValue s ≤ 1 ∧
    confidenceValue (applyCalculateConfidence s) = confidenceValue s := by
  refine ⟨?_, ?_, ?_, rfl⟩
  · unfold confidenceValue requiredFields presentRequiredCount
    by_cases h1 : s.card_last_4 = NOT_FOUND <;>
      by_cases h2 : s.statement_date = NOT_FOUND <;>
      by_cases h3 : s.payment_due_date = NOT_FOUND <;>
      by_cases h4 : s.total_amount_due = NOT_FOUND <;>
      by_cases h5 : s.minimum_payment = NOT_FOUND <;>
      simp [List.countP_cons, h1, h2, h3, h4, h5]
  · unfold confidenceValue
    positivity
  · unfold confidenceValue requiredFields
    rw [div_le_one (by norm_num)]
    have hle := List.countP_le_length
      (p := fun f => decide (f ≠ NOT_FOUND))
      (l := [s.card_last_4, s.statement_date, s.payment_due_date,
             s.total_amount_due, s.minimum_payment])
    simp only [List.length_cons, List.length_nil] at hle ⊢
    exact_mod_cast hle

/-- C10: presence of a required field is decided by literal inequality
with the sentinel, so any record whose five required fields all differ
from `"NOT_FOUND"` (including fields holding the empty string) scores a
confidence of one. -/
theorem C10_nonsentinel_counts_present (s : StatementData)
    (h : ∀ f ∈ requiredFields s, f ≠ NOT_FOUND) : confidenceValue s = 1 := by
  have hcount : (requiredFields s).countP (fun f => decide (f ≠ NOT_FOUND)) =
      (requiredFields s).length :=
    List.countP_eq_length.mpr (fun a ha => decide_eq_true (h a ha))
  simp only [confidenceValue]
  rw [hcount]
  simp [requiredFields]

/-- C10 witness: a record whose required fields all hold the empty string
scores exactly one. -/
theorem C10_nonsentinel_counts_present_witness :
    confidenceValue emptyFieldsStatement = 1 :=
  C10_nonsentinel_counts_present emptyFieldsStatement (by decide)

theorem dedupGo_sublist (seen : List Str) (ts : List Transaction) :
    List.Sublist (dedupGo seen ts) ts := by
  induction ts generalizing seen with
  | nil => simp [dedupGo]
  | cons t rest ih =>
    by_cases hseen : txnKey t ∈ seen
    · simp only [dedupGo]
      rw [if_pos hseen]
      exact (ih seen).trans (List.sublist_cons_self t rest)
    · simp only [dedupGo]
      rw [if_neg hseen]
      exact (ih _).cons₂ t

theorem mem_dedupGo_key_not_seen (seen : List Str) (ts : List Transaction) :
    ∀ t ∈ dedupGo seen ts, txnKey t ∉ seen := by
  induction ts generalizing seen with
  | nil => simp [dedupGo]
  | cons t rest ih =>
    intro x hx
    by_cases hseen : txnKey t ∈ seen
    · simp only [dedupGo] at hx
      rw [if_pos hseen] at hx
      exact ih seen x hx
    · simp only [dedupGo] at hx
      rw [if_neg hseen] at hx
      rcases List.mem_cons.mp hx with h | h
      · subst h; exact hseen
      · intro hmem
        exact ih (txnKey t :: seen) x h (List.mem_cons_of_mem _ hmem)

theorem dedupGo_pairwise (seen : List Str) (ts : List Transaction) :
    (dedupGo seen ts).Pairwise (fun a b => txnKey a ≠ txnKey b) := by
  induction ts generalizing seen with
  | nil => simp [dedupGo]
  | cons t rest ih =>
    by_cases hseen : txnKey t ∈ seen
    · simp only [dedupGo]
      rw [if_pos hseen]
      exact ih seen
    · simp only [dedupGo]
      rw [if_neg hseen]
      refine List.Pairwise.cons ?_ (ih _)
      intro b hb hkey
      exact mem_dedupGo_key_not_seen (txnKey t :: seen) rest b hb
        (hkey ▸ List.mem_cons_self _ _)

theorem dedupGo_first_mem (seen : List Str) (ts : List Transaction)
    (k : Str) (x : Transaction)
    (hfind : ts.find? (fun t => decide (txnKey t = k)) = some x)
    (hk : k ∉ seen) : x ∈ dedupGo seen ts := by
  induction ts generalizing seen with
  | nil => simp at hfind
  | cons t rest ih =>
    by_cases hkey : txnKey t = k
    · have hx : t = x := by
        rw [List.find?_cons_of_pos _ (by simpa using hkey)] at hfind
        exact Option.some.inj hfind
      subst hx
      have hseen : txnKey t ∉ seen := by rw [hkey]; exact hk
      simp only [dedupGo]
      rw [if_neg hseen]
      exact List.mem_cons_self _ _
    · rw [List.find?_cons_of_neg _ (by simpa using hkey)] at hfind
      by_cases hseen : txnKey t ∈ seen
      · simp only [dedupGo]
        rw [if_pos hseen]
        exact ih seen hfind hk
      · simp only [dedupGo]
        rw [if_neg hseen]
        refine List.mem_cons_of_mem _ (ih (txnKey t :: seen) hfind ?_)
        intro hmem
        rcases List.mem_cons.mp hmem with h | h
        · exact hkey h.symm
        · exact hk h

/-- C3 counterexample: the generic fallback engine performs no
de-duplication — a text repeating one transaction line yields two records
sharing the identical (date, description, amount) triple. -/
theorem C3_claim_counterexample :
    base_extract_transactions dupIndianText = [dupIndianTxn, dupIndianTxn] := by
  rfl

/-- C3 (amended): the HDFC transaction engine de-duplicates on the
(date, 40-character description prefix, amount) key: no two emitted records
share a key, the emitted sequence is a subsequence of the scanned records
(so the order of first occurrence is preserved), and the first record bearing
any given key is always emitted.  The generic fallback engine, by contrast,
emits duplicates unchanged. -/
theorem C3_hdfc_dedup (text : Str) :
    (hdfc_extract_transactions text).Pairwise (fun a b => txnKey a ≠ txnKey b) ∧
    List.Sublist (hdfc_extract_transactions text) (hdfcRawTransactions text) ∧
    (∀ k x,
      (hdfcRawTransactions text).find? (fun t => decide (txnKey t = k)) = some x →
      x ∈ hdfc_extract_transactions text) :=
  ⟨dedupGo_pairwise [] _, dedupGo_sublist [] _,
   fun k x hf => dedupGo_first_mem [] _ k x hf (by simp)⟩

/-- C3 witness: on the concrete HDFC text with a duplicated line, the first
occurrence is emitted. -/
theorem C3_hdfc_dedup_witness :
    hdfcSwiggyTxn ∈ hdfc_extract_transactions hdfcDupText :=
  (C3_hdfc_dedup hdfcDupText).2.2 (txnKey hdfcSwiggyTxn) hdfcSwiggyTxn (by rfl)

theorem extract_cons_of_cleanedCapture_none (text : Str) (p : PatternFn)
    (rest : List PatternFn) (h : cleanedCapture p text = none) :
    extract_with_pattern text (p :: rest) = extract_with_pattern text rest := by
  unfold cleanedCapture at h
  cases hp : p text with
  | none => simp only [extract_with_pattern, hp]
  | some g =>
    simp only [hp] at h
    simp only [extract_with_pattern, hp]
    by_cases he : (collapseWS (pyStrip g)).isEmpty
    · rw [if_pos he]
    · rw [if_neg he] at h
      exact absurd h (Option.some_ne_none _)

theorem extract_cons_of_cleanedCapture_some (text : Str) (p : PatternFn)
    (rest : List PatternFn) (v : Str) (h : cleanedCapture p text = some v) :
    extract_with_pattern text (p :: rest) = v := by
  unfold cleanedCapture at h
  cases hp : p text with
  | none => simp [hp] at h
  | some g =>
    simp only [hp] at h
    simp only [extract_with_pattern, hp]
    by_cases he : (collapseWS (pyStrip g)).isEmpty
    · rw [if_pos he] at h
      exact absurd h (by simp)
    · rw [if_neg he] at h
      rw [if_neg he]
      exact Option.some.inj h

/-- C4 (amended): `extract_with_pattern` tries candidate patterns strictly
in declared order and returns the cleaned capture of the first pattern
whose captured value is non-empty after trimming and whitespace collapsing
(a whitespace-only capture is skipped); when every pattern fails to produce
such a value the sentinel is returned and no failure escapes. -/
theorem C4_pattern_priority (text : Str) (ps : List PatternFn) :
    (∀ i (hi : i < ps.length) (v : Str),
      (∀ j (hj : j < i), cleanedCapture (ps.get ⟨j, lt_trans hj hi⟩) text = none) →
      cleanedCapture (ps.get ⟨i, hi⟩) text = some v →
      extract_with_pattern text ps = v) ∧
    ((∀ i (hi : i < ps.length), cleanedCapture (ps.get ⟨i, hi⟩) text = none) →
      extract_with_pattern text ps = NOT_FOUND) := by
  induction ps with
  | nil =>
    refine ⟨fun i hi => absurd hi (by simp), fun _ => rfl⟩
  | cons p rest ih =>
    constructor
    · intro i hi v hprev hcap
      cases i with
      | zero => exact extract_cons_of_cleanedCapture_some text p rest v hcap
      | succ n =>
        have h0 : cleanedCapture p text = none := hprev 0 (Nat.succ_pos n)
        rw [extract_cons_of_cleanedCapture_none text p rest h0]
        exact ih.1 n (Nat.lt_of_succ_lt_succ hi) v
          (fun j hj => hprev (j + 1) (Nat.succ_lt_succ hj)) hcap
    · intro hall
      have h0 : cleanedCapture p text = none := hall 0 (by simp)
      rw [extract_cons_of_cleanedCapture_none text p rest h0]
      exact ih.2 (fun i hi => hall (i + 1) (Nat.succ_lt_succ hi))

/-- C4 witness: on a two-pattern list whose first pattern does not match,
the second pattern wins and its captured value is trimmed and
whitespace-collapsed. -/
theorem C4_pattern_priority_witness :
    extract_with_pattern []
      [(fun _ => none : PatternFn), fun _ => some (str "A  B")] = str "A B" :=
  (C4_pattern_priority []
      [(fun _ => none : PatternFn), fun _ => some (str "A  B")]).1
    1 (by decide) (str "A B")
    (fun j hj => by
      have hj0 : j = 0 := by omega
      subst hj0
      rfl)
    rfl

/-- C4 counterexample: a first pattern capturing the non-empty but
whitespace-only group `" "` is skipped, and the second pattern's value is
returned, contradicting the claim that the first pattern producing a
non-empty captured group always wins. -/
theorem C4_claim_counterexample :
    ((fun _ => some (str " ") : PatternFn) []) = some (str " ") ∧
    str " " ≠ [] ∧
    extract_with_pattern []
      [(fun _ => some (str " ") : PatternFn), fun _ => some (str "X")] = str "X" ∧
    str "X" ≠ str " " :=
  ⟨rfl, by decide, rfl, by decide⟩

theorem parseAmountRev_chars (r2 amt : Str) (i : ℕ)
    (h : parseAmountRev r2 = some (amt, i)) :
    amt ≠ [] ∧ ∀ c ∈ amt, c.isDigit ∨ c = ',' ∨ c = '.' := by
  cases r2 with
  | nil => simp [parseAmountRev] at h
  | cons e2 r2a =>
  cases r2a with
  | nil => simp [parseAmountRev] at h
  | cons e1 r2b =>
  cases r2b with
  | nil => simp [parseAmountRev] at h
  | cons cdot r3 =>
  simp only [parseAmountRev] at h
  by_cases hcond : (e2.isDigit && e1.isDigit && (cdot == '.')) = true
  · rw [if_pos hcond] at h
    simp only [Bool.and_eq_true, beq_iff_eq] at hcond
    by_cases hrun : (r3.takeWhile (fun c => c.isDigit || c = ',')).isEmpty
    · rw [if_pos hrun] at h
      exact absurd h (by simp)
    · rw [if_neg hrun] at h
      have hinj := Option.some.inj h
      have hamt : amt =
          (r3.takeWhile (fun c => c.isDigit || c = ',')).reverse ++
            '.' :: [e1, e2] := (congrArg Prod.fst hinj).symm
      constructor
      · rw [hamt]; simp
      · intro c hc
        rw [hamt] at hc
        rcases List.mem_append.mp hc with hm | hm
        · have hcc : c.isDigit = true ∨ c = ',' := by
            simpa using List.mem_takeWhile_imp (List.mem_reverse.mp hm)
          rcases hcc with hd | hd
          · exact Or.inl hd
          · exact Or.inr (Or.inl hd)
        · rcases List.mem_cons.mp hm with h1 | h1
          · exact Or.inr (Or.inr h1)
          · rcases List.mem_cons.mp h1 with h2 | h2
            · exact Or.inl (h2 ▸ hcond.1.2)
            · rcases List.mem_cons.mp h2 with h3 | h3
              · exact Or.inl (h3 ▸ hcond.1.1)
              · exact absurd h3 (List.not_mem_nil c)
  · rw [if_neg hcond] at h
    exact absurd h (by simp)

theorem hdfcAmountSearch_group (rest amt : Str) (b : Bool) (i : ℕ)
    (h : hdfcAmountSearch rest = some (amt, b, i)) :
    amt ≠ [] ∧ ∀ c ∈ amt, c.isDigit ∨ c = ',' ∨ c = '.' := by
  unfold hdfcAmountSearch at h
  cases hp : parseAmountRev (hdfcAmountTarget rest) with
  | none => rw [hp] at h; simp at h
  | some ai =>
    rw [hp] at h
    have hinj : (ai.1, hdfcHasCr rest, ai.2) = (amt, b, i) := Option.some.inj h
    have h1 : ai.1 = amt := congrArg Prod.fst hinj
    have hch := parseAmountRev_chars _ ai.1 ai.2 (by rw [hp])
    rw [h1] at hch
    exact hch

theorem amt_ne_NOT_FOUND (amt : Str)
    (hch : ∀ c ∈ amt, c.isDigit ∨ c = ',' ∨ c = '.') : amt ≠ NOT_FOUND := by
  intro he
  subst he
  have := hch 'N' (by decide)
  revert this
  decide

theorem no_cr_suffix_of_digit_chars (l m : Str) (hne : l ≠ [])
    (hch : ∀ c ∈ l, c.isDigit ∨ c = '.') :
    ¬ str " Cr" <:+ m ++ l := by
  intro hs
  have hp := List.reverse_prefix.mpr hs
  rw [List.reverse_append] at hp
  cases hl : l.reverse with
  | nil =>
    exact hne (by simpa using congrArg List.reverse hl)
  | cons c cs =>
    rw [hl] at hp
    obtain ⟨tl, ht⟩ := hp
    have hrev : (str " Cr").reverse = 'r' :: 'C' :: ' ' :: [] := rfl
    rw [hrev] at ht
    simp only [List.cons_append, List.nil_append] at ht
    have hc : c = 'r' := ((List.cons.inj ht).1).symm
    have hcl : c ∈ l := List.mem_reverse.mp (by rw [hl]; exact List.mem_cons_self _ _)
    rcases hch c hcl with hd | hd
    · rw [hc] at hd
      exact absurd hd (by decide)
    · rw [hc] at hd
      exact absurd hd (by decide)

/-- C6 (amended): in the HDFC transaction grammar, a line whose amount
search matches the optional `(Cr)` group yields a record whose amount
carries the trailing `" Cr"` credit tag, and a line without the marker
yields an amount that cannot end in `" Cr"` — credits and debits are never
emitted indistinguishably by this grammar.  The generic fallback grammar,
by contrast, discards the marker (see the counterexample). -/
theorem C6_hdfc_credit_tag (line : Str) (t : Transaction)
    (h : hdfcProcessLine line = some t) :
    (str " Cr" <:+ t.amount ↔ hdfcLineCredit line = some true) := by
  simp only [hdfcProcessLine] at h
  simp only [hdfcLineCredit]
  cases hd : parseDate10 (pyStrip line) with
  | none => rw [hd] at h; exact absurd h (by simp)
  | some dt =>
  obtain ⟨date, tail⟩ := dt
  rw [hd] at h
  dsimp only at h ⊢
  by_cases hws : (tail.takeWhile pyIsSpaceB).isEmpty
  · rw [if_pos hws] at h; exact absurd h (by simp)
  · rw [if_neg hws] at h
    rw [if_neg hws]
    by_cases hre : (tail.dropWhile pyIsSpaceB).isEmpty
    · rw [if_pos hre] at h; exact absurd h (by simp)
    · rw [if_neg hre] at h
      cases has : hdfcAmountSearch (tail.dropWhile pyIsSpaceB) with
      | none => rw [has] at h; exact absurd h (by simp)
      | some aci =>
      obtain ⟨amountGroup, isCredit, startIdx⟩ := aci
      rw [has] at h
      dsimp only at h ⊢
      by_cases hd5 :
          (pyStrip ((tail.dropWhile pyIsSpaceB).take startIdx)).length < 5
      · rw [if_pos hd5] at h; exact absurd h (by simp)
      · rw [if_neg hd5] at h
        by_cases hskip : hdfcSkipHeaders.any (fun skip =>
            strContains
              (pyUpper (pyStrip ((tail.dropWhile pyIsSpaceB).take startIdx)))
              skip)
        · rw [if_pos hskip] at h; exact absurd h (by simp)
        · rw [if_neg hskip] at h
          by_cases hce : (clean_amount amountGroup).isEmpty
          · rw [if_pos hce] at h; exact absurd h (by simp)
          · rw [if_neg hce] at h
            cases hf : pyFloatQ (clean_amount amountGroup) with
            | none => rw [hf] at h; exact absurd h (by simp)
            | some v =>
            rw [hf] at h
            dsimp only at h
            by_cases hv : v < 0
            · rw [if_pos hv] at h; exact absurd h (by simp)
            · rw [if_neg hv] at h
              have hgrp := hdfcAmountSearch_group _ _ _ _ has
              have hNF : amountGroup ≠ NOT_FOUND := amt_ne_NOT_FOUND _ hgrp.2
              have hchars := cleanAmount_chars amountGroup hgrp.1 hNF
              have hcne : clean_amount amountGroup ≠ [] := by
                intro hh
                rw [hh] at hce
                exact hce rfl
              have ht := Option.some.inj h
              cases isCredit with
              | true =>
                constructor
                · intro _; rfl
                · intro _
                  rw [← ht]
                  dsimp only
                  rw [if_pos rfl]
                  exact List.suffix_append _ _
              | false =>
                constructor
                · intro hs
                  rw [← ht] at hs
                  dsimp only at hs
                  rw [if_neg (by simp)] at hs
                  exact absurd hs
                    (no_cr_suffix_of_digit_chars _ _ hcne hchars)
                · intro he
                  exact absurd (Option.some.inj he) (by simp)

/-- C6 witness: the concrete HDFC credit line yields a record whose amount
ends in the `" Cr"` tag. -/
theorem C6_hdfc_credit_tag_witness :
    str " Cr" <:+ hdfcUberCreditTxn.amount :=
  (C6_hdfc_credit_tag hdfcCreditLine hdfcUberCreditTxn (by rfl)).mpr (by rfl)

/-- C6 counterexample: the generic fallback grammar discards the `Cr`
marker (its pattern consumes the marker in a non-capturing group), so an
explicitly credit-marked line is emitted exactly like the corresponding
debit line — the two outputs are identical records with no credit tag. -/
theorem C6_claim_counterexample :
    base_extract_transactions creditLineText =
      base_extract_transactions debitLineText ∧
    base_extract_transactions creditLineText =
      [{ date := str "01/02/2024", description := str "PAYMENT RECEIVED",
         amount := str "₹500.00", category := str "Bills" }] :=
  ⟨rfl, rfl⟩

theorem enhanceField_of_present (cur : Str) (aiVal : Option Str) (b : Bool)
    (h : cur ≠ NOT_FOUND) : enhanceField cur aiVal b = cur := by
  unfold enhanceField
  rw [if_neg h]

theorem enhanceField_cases (cur : Str) (aiVal : Option Str) (b : Bool) :
    enhanceField cur aiVal b = cur ∨
      (cur = NOT_FOUND ∧ ∃ v, aiVal = some v ∧ v ≠ NOT_FOUND ∧
        enhanceField cur aiVal b = (if b then clean_amount v else v)) := by
  unfold enhanceField
  by_cases hcur : cur = NOT_FOUND
  · rw [if_pos hcur]
    cases aiVal with
    | none => exact Or.inl rfl
    | some v =>
      dsimp only
      by_cases hv : v ≠ NOT_FOUND
      · rw [if_pos hv]
        exact Or.inr ⟨hcur, v, rfl, hv, rfl⟩
      · rw [if_neg hv]
        exact Or.inl rfl
  · rw [if_neg hcur]
    exact Or.inl rfl

/-- C2 (amended): the enhancement mode never overwrites a field already
present, leaves every field outside the four requested ones untouched,
updates a missing field only when the external call reports success with a
non-sentinel value for it (amount fields passing through `clean_amount`),
appends exactly one non-fatal error note when the external call raises, and
is a silent no-op on the record's fields and errors when the external call
returns a reported-failure response. -/
theorem C2_enhancement_behaviour (apiKey : Str) (s : StatementData)
    (outcome : AIOutcome) (r : StatementData)
    (hr : r = enhance_regex_results apiKey s outcome) :
    (s.card_last_4 ≠ NOT_FOUND → r.card_last_4 = s.card_last_4) ∧
    (s.total_amount_due ≠ NOT_FOUND → r.total_amount_due = s.total_amount_due) ∧
    (s.payment_due_date ≠ NOT_FOUND → r.payment_due_date = s.payment_due_date) ∧
    (s.minimum_payment ≠ NOT_FOUND → r.minimum_payment = s.minimum_payment) ∧
    r.bank_name = s.bank_name ∧
    r.statement_date = s.statement_date ∧
    r.statement_period_start = s.statement_period_start ∧
    r.statement_period_end = s.statement_period_end ∧
    r.credit_limit = s.credit_limit ∧
    r.available_credit = s.available_credit ∧
    r.transactions = s.transactions ∧
    (r.card_last_4 ≠ s.card_last_4 →
      s.card_last_4 = NOT_FOUND ∧ ∃ d v, outcome = .success d ∧
        d.card_last_4 = some v ∧ v ≠ NOT_FOUND ∧ r.card_last_4 = v) ∧
    (r.total_amount_due ≠ s.total_amount_due →
      s.total_amount_due = NOT_FOUND ∧ ∃ d v, outcome = .success d ∧
        d.total_amount_due = some v ∧ v ≠ NOT_FOUND ∧
        r.total_amount_due = clean_amount v) ∧
    (r.payment_due_date ≠ s.payment_due_date →
      s.payment_due_date = NOT_FOUND ∧ ∃ d v, outcome = .success d ∧
        d.payment_due_date = some v ∧ v ≠ NOT_FOUND ∧ r.payment_due_date = v) ∧
    (r.minimum_payment ≠ s.minimum_payment →
      s.minimum_payment = NOT_FOUND ∧ ∃ d v, outcome = .success d ∧
        d.minimum_payment = some v ∧ v ≠ NOT_FOUND ∧
        r.minimum_payment = clean_amount v) ∧
    (∀ msg, outcome = .raised msg → apiKey ≠ [] → someRequiredMissing s →
      r.errors = s.errors ++ [str "AI enhancement failed: " ++ msg]) ∧
    (∀ e, outcome = .failedResp e → r.errors = s.errors) ∧
    (∀ d, outcome = .success d → r.errors = s.errors) := by
  subst hr
  by_cases hk : apiKey.isEmpty
  · have hre : enhance_regex_results apiKey s outcome = s := by
      unfold enhance_regex_results
      rw [if_pos hk]
    rw [hre]
    refine ⟨fun _ => rfl, fun _ => rfl, fun _ => rfl, fun _ => rfl, rfl, rfl,
      rfl, rfl, rfl, rfl, rfl,
      fun hne => absurd rfl hne, fun hne => absurd rfl hne,
      fun hne => absurd rfl hne, fun hne => absurd rfl hne,
      ?_, fun _ _ => rfl, fun _ _ => rfl⟩
    intro msg _ hkey _
    exact absurd (by simpa using hk) hkey
  · by_cases hall : s.card_last_4 ≠ NOT_FOUND ∧ s.total_amount_due ≠ NOT_FOUND ∧
        s.payment_due_date ≠ NOT_FOUND ∧ s.minimum_payment ≠ NOT_FOUND
    · have hre : enhance_regex_results apiKey s outcome = s := by
        unfold enhance_regex_results
        rw [if_neg hk, if_pos hall]
      rw [hre]
      refine ⟨fun _ => rfl, fun _ => rfl, fun _ => rfl, fun _ => rfl, rfl, rfl,
        rfl, rfl, rfl, rfl, rfl,
        fun hne => absurd rfl hne, fun hne => absurd rfl hne,
        fun hne => absurd rfl hne, fun hne => absurd rfl hne,
        ?_, fun _ _ => rfl, fun _ _ => rfl⟩
      intro msg _ _ hmiss
      rcases hmiss with h | h | h | h
      · exact absurd h hall.1
      · exact absurd h hall.2.1
      · exact absurd h hall.2.2.1
      · exact absurd h hall.2.2.2
    · cases outcome with
      | raised msg =>
        have hre : enhance_regex_results apiKey s (.raised msg) =
            applyCalculateConfidence
              { s with errors :=
                  s.errors ++ [str "AI enhancement failed: " ++ msg] } := by
          unfold enhance_regex_results
          rw [if_neg hk, if_neg hall]
        rw [hre]
        refine ⟨fun _ => rfl, fun _ => rfl, fun _ => rfl, fun _ => rfl, rfl, rfl,
          rfl, rfl, rfl, rfl, rfl,
          fun hne => absurd rfl hne, fun hne => absurd rfl hne,
          fun hne => absurd rfl hne, fun hne => absurd rfl hne,
          ?_, ?_, ?_⟩
        · intro m hm _ _
          cases hm
          rfl
        · intro e he
          cases he
        · intro d hd
          cases hd
      | failedResp err =>
        have hre : enhance_regex_results apiKey s (.failedResp err) =
            applyCalculateConfidence s := by
          unfold enhance_regex_results
          rw [if_neg hk, if_neg hall]
        rw [hre]
        refine ⟨fun _ => rfl, fun _ => rfl, fun _ => rfl, fun _ => rfl, rfl, rfl,
          rfl, rfl, rfl, rfl, rfl,
          fun hne => absurd rfl hne, fun hne => absurd rfl hne,
          fun hne => absurd rfl hne, fun hne => absurd rfl hne,
          ?_, fun _ _ => rfl, ?_⟩
        · intro m hm _ _
          cases hm
        · intro d hd
          cases hd
      | success d =>
        have hre : enhance_regex_results apiKey s (.success d) =
            applyCalculateConfidence
              { s with
                card_last_4 := enhanceField s.card_last_4 d.card_last_4 false,
                total_amount_due :=
                  enhanceField s.total_amount_due d.total_amount_due true,
                payment_due_date :=
                  enhanceField s.payment_due_date d.payment_due_date false,
                minimum_payment :=
                  enhanceField s.minimum_payment d.minimum_payment true,
                extraction_method :=
                  s.extraction_method ++ str "+ai_enhanced" } := by
          unfold enhance_regex_results
          rw [if_neg hk, if_neg hall]
        rw [hre]
        refine ⟨?_, ?_, ?_, ?_, rfl, rfl, rfl, rfl, rfl, rfl, rfl,
          ?_, ?_, ?_, ?_,
          ?_, ?_, fun _ _ => rfl⟩
        · intro hp
          exact enhanceField_of_present _ _ _ hp
        · intro hp
          exact enhanceField_of_present _ _ _ hp
        · intro hp
          exact enhanceField_of_present _ _ _ hp
        · intro hp
          exact enhanceField_of_present _ _ _ hp
        · intro hne
          rcases enhanceField_cases s.card_last_4 d.card_last_4 false with
            hcase | ⟨hNF, v, hval, hvNF, heq⟩
          · exact absurd hcase hne
          · exact ⟨hNF, d, v, rfl, hval, hvNF, by simpa using heq⟩
        · intro hne
          rcases enhanceField_cases s.total_amount_due d.total_amount_due true with
            hcase | ⟨hNF, v, hval, hvNF, heq⟩
          · exact absurd hcase hne
          · exact ⟨hNF, d, v, rfl, hval, hvNF, by simpa using heq⟩
        · intro hne
          rcases enhanceField_cases s.payment_due_date d.payment_due_date false with
            hcase | ⟨hNF, v, hval, hvNF, heq⟩
          · exact absurd hcase hne
          · exact ⟨hNF, d, v, rfl, hval, hvNF, by simpa using heq⟩
        · intro hne
          rcases enhanceField_cases s.minimum_payment d.minimum_payment true with
            hcase | ⟨hNF, v, hval, hvNF, heq⟩
          · exact absurd hcase hne
          · exact ⟨hNF, d, v, rfl, hval, hvNF, by simpa using heq⟩
        · intro m hm _ _
          cases hm
        · intro e he
          cases he

/-- C2 counterexample: when the external call comes back with a
reported-failure response (for example an empty candidate list), the
enhancement is attempted (a key is configured and a required field is
missing) yet the record is returned with no appended error string,
contradicting the claim that a failed external call appends a non-fatal
error. -/
theorem C2_claim_counterexample :
    (enhance_regex_results (str "k") pendingStatement
        (.failedResp (str "Empty response from AI"))).errors = [] ∧
    pendingStatement.errors = [] ∧
    pendingStatement.card_last_4 = NOT_FOUND ∧
    str "k" ≠ [] :=
  ⟨rfl, rfl, rfl, by decide⟩

/-- C2 witness: the amended theorem applied to a concrete raising outcome
on a record with a missing required field. -/
theorem C2_enhancement_behaviour_witness :
    (enhance_regex_results (str "k") pendingStatement
        (.raised (str "boom"))).errors =
      pendingStatement.errors ++ [str "AI enhancement failed: " ++ str "boom"] := by
  obtain ⟨_, _, _, _, _, _, _, _, _, _, _, _, _, _, _, hD, _, _⟩ :=
    C2_enhancement_behaviour (str "k") pendingStatement (.raised (str "boom"))
      _ rfl
  exact hD (str "boom") rfl (by decide) (Or.inl rfl)

/-- C7: when the extracted text is absent or its stripped length is below
the 100-character minimum, `parse` short-circuits to the FAILED result whose
reason mentions insufficient text, with the method tag `"none"`; the result
is the same for any behaviour of the detection, extraction and enhancement
stages (none of them runs), and no statement record — hence no confidence
score — is produced. -/
theorem C7_insufficient_text (apiKey apiKey2 : Str) (env env2 : ParseEnv)
    (forceAI forceAI2 : Bool) (text : Str)
    (h1 : env.extractResult = .ok text)
    (h2 : env2.extractResult = .ok text)
    (hshort : text = [] ∨ (pyStrip text).length < 100) :
    unified_parse apiKey env forceAI =
      .failed (str "Could not extract sufficient text from PDF") (str "none") ∧
    unified_parse apiKey2 env2 forceAI2 = unified_parse apiKey env forceAI ∧
    str "sufficient text" <:+:
      str "Could not extract sufficient text from PDF" := by
  have hcond : (text.isEmpty || decide ((pyStrip text).length < 100)) = true := by
    rcases hshort with h | h
    · subst h; rfl
    · simp [h]
  have key : ∀ (ak : Str) (e : ParseEnv) (fa : Bool),
      e.extractResult = .ok text →
      unified_parse ak e fa =
        .failed (str "Could not extract sufficient text from PDF")
          (str "none") := by
    intro ak e fa he
    have hinner : unifiedParseInner ak e fa =
        Except.ok (.failed (str "Could not extract sufficient text from PDF")
          (str "none")) := by
      unfold unifiedParseInner
      rw [he]
      change (if (text.isEmpty || decide ((pyStrip text).length < 100)) = true
          then _ else _) = _
      rw [if_pos hcond]
      rfl
    unfold unified_parse
    rw [hinner]
  refine ⟨key apiKey env forceAI h1, ?_, ?_⟩
  · rw [key apiKey2 env2 forceAI2 h2, key apiKey env forceAI h1]
  · decide

/-- C8: the orchestrator never propagates a fault: whenever any stage inside
the `try` block raises (the inner computation is an `error`), `parse`
returns the FAILED result carrying the exception text with the method tag
`"error"`; and in every case the caller receives a well-formed result
object. -/
theorem C8_exception_to_failed (apiKey : Str) (env : ParseEnv)
    (forceAI : Bool) :
    (∀ e, unifiedParseInner apiKey env forceAI = .error e →
      unified_parse apiKey env forceAI = .failed e (str "error")) ∧
    ((∃ reason method,
        unified_parse apiKey env forceAI = .failed reason method) ∨
      ∃ st status, unified_parse apiKey env forceAI = .done st status) := by
  constructor
  · intro e he
    unfold unified_parse
    rw [he]
  · cases hp : unified_parse apiKey env forceAI with
    | failed reason method => exact Or.inl ⟨reason, method, rfl⟩
    | done st status => exact Or.inr ⟨st, status, rfl⟩

/-- C8 witness: a raising text-extraction stage yields the FAILED result
carrying the exception text. -/
theorem C8_exception_to_failed_witness :
    unified_parse (str "k") c8Env false =
      .failed (str "PDF engine exploded") (str "error") :=
  (C8_exception_to_failed (str "k") c8Env false).1
    (str "PDF engine exploded") rfl

/-- C7 witness: a 40-character extracted text yields the insufficient-text
FAILED result under fully stubbed later stages. -/
theorem C7_insufficient_text_witness :
    unified_parse (str "k") c7Env false =
      .failed (str "Could not extract sufficient text from PDF")
        (str "none") :=
  (C7_insufficient_text (str "k") (str "k") c7Env c7EnvAlt false true
    (str "Too short to be a credit card statement.") rfl rfl
    (Or.inr (by decide))).1
